import Mathlib

/-!
# i2c-i810: GPIO bit-banged I2C / DDC line driver

A shallow embedding of `kernel/busses/i2c-i810.c`.

* The memory-mapped register block and the kernel services the driver calls
  (`ioremap_nocache`, `printk`, `i2c_bit_add_bus`) are an environment `Env`
  plus an explicit machine state `State` that records every externally visible
  action in a chronological trace.
* `outlong` / `readlong` dereference the global pointer `mem`; with `mem`
  equal to `NULL` the access faults.
* C `int` arguments are `Int`, `unsigned int` words are `Nat` reduced modulo
  `2 ^ 32`, `unsigned long` addresses are `Nat` reduced modulo
  `2 ^ BITS_PER_LONG`.
-/

namespace I810

/-! ## Constants of the source -/

/-- GPIO register locations. -/
def I810_IOCONTROL_OFFSET : Nat := 0x5000
/-- Not used by the driver. -/
def I810_HVSYNC : Nat := 0x00
/-- First GPIO control register. -/
def I810_GPIOA : Nat := 0x10
/-- Second GPIO control register. -/
def I810_GPIOB : Nat := 0x14

/-- Bit locations in the registers. -/
def SCL_DIR_MASK : Nat := 0x0001
/-- Clock direction bit. -/
def SCL_DIR : Nat := 0x0002
/-- Clock value-enable bit. -/
def SCL_VAL_MASK : Nat := 0x0004
/-- Clock output value bit. -/
def SCL_VAL_OUT : Nat := 0x0008
/-- Clock input value bit. -/
def SCL_VAL_IN : Nat := 0x0010
/-- Data direction-enable bit. -/
def SDA_DIR_MASK : Nat := 0x0100
/-- Data direction bit. -/
def SDA_DIR : Nat := 0x0200
/-- Data value-enable bit. -/
def SDA_VAL_MASK : Nat := 0x0400
/-- Data output value bit. -/
def SDA_VAL_OUT : Nat := 0x0800
/-- Data input value bit. -/
def SDA_VAL_IN : Nat := 0x1000

/-- Delay constant handed to the bit-banging engine. -/
def CYCLE_DELAY : Nat := 10

/-! ## Machine model -/

/-- Externally visible actions of the driver, in the order they happen. -/
inductive Event where
  | ioremap_nocache (cadr : Nat) (len : Nat)
  | outlong (dat : Nat) (off : Nat)
  | readlong (off : Nat)
  | printk (msg : String)
  | i2c_bit_add_bus (name : String)
  | i2c_bit_del_bus (name : String)
  deriving DecidableEq, Repr

/-- The hardware and kernel services the driver is linked against.
`store hw off dat` is the effect of a 32-bit store at byte offset `off` of the
mapped window, `load hw off` the value delivered by a 32-bit load there
(together with the hardware state afterwards), `ioremap_nocache cadr len` the
mapped base or `none` for `NULL`. -/
structure Env (σ : Type) where
  store : σ → Nat → Nat → σ
  load : σ → Nat → Nat × σ
  ioremap_nocache : Nat → Nat → Option Nat
  BITS_PER_LONG : Nat
  HZ : Nat

/-- Driver state: the global `mem` pointer (`none` is `NULL`), the hardware
behind the window, and the trace of actions so far. -/
structure State (σ : Type) where
  mem : Option Nat
  hw : σ
  trace : List Event

/-- A store or load through a `NULL` `mem`. -/
inductive Fault where
  | nullDeref
  deriving DecidableEq, Repr

/-- Reduction to `unsigned int`. -/
def u32 (n : Nat) : Nat := n % 2 ^ 32

variable {σ : Type}

/-- Source: `*((unsigned int *) (mem + off)) = dat;` -/
def outlong (E : Env σ) (dat : Nat) (off : Nat) (s : State σ) : Except Fault (State σ) :=
  match s.mem with
  | none => .error .nullDeref
  | some _ =>
    .ok { s with hw := E.store s.hw off (u32 dat),
                 trace := s.trace ++ [Event.outlong (u32 dat) off] }

/-- Source: `return *((unsigned int *) (mem + off));` -/
def readlong (E : Env σ) (off : Nat) (s : State σ) : Except Fault (Nat × State σ) :=
  match s.mem with
  | none => .error .nullDeref
  | some _ =>
    .ok (u32 (E.load s.hw off).1,
         { s with hw := (E.load s.hw off).2, trace := s.trace ++ [Event.readlong off] })

/-! ## The eight line primitives -/

/-- Source lines 112-117. -/
def bit_i810i2c_setscl (E : Env σ) (_data : Nat) (val : Int) (s : State σ) :
    Except Fault (State σ) := do
  let s ← outlong E ((if val ≠ 0 then SCL_VAL_OUT else 0) ||| SCL_DIR ||| SCL_DIR_MASK
              ||| SCL_VAL_MASK) I810_GPIOB s
  let (_, s) ← readlong E I810_GPIOB s
  pure s

/-- Source lines 119-124. -/
def bit_i810i2c_setsda (E : Env σ) (_data : Nat) (val : Int) (s : State σ) :
    Except Fault (State σ) := do
  let s ← outlong E ((if val ≠ 0 then SDA_VAL_OUT else 0) ||| SDA_DIR ||| SDA_DIR_MASK
              ||| SDA_VAL_MASK) I810_GPIOB s
  let (_, s) ← readlong E I810_GPIOB s
  pure s

/-- Source lines 136-141. -/
def bit_i810i2c_getscl (E : Env σ) (_data : Nat) (s : State σ) :
    Except Fault (Int × State σ) := do
  let s ← outlong E SCL_DIR_MASK I810_GPIOB s
  let s ← outlong E 0 I810_GPIOB s
  let (r, s) ← readlong E I810_GPIOB s
  pure (if 0 ≠ (r &&& SCL_VAL_IN) then 1 else 0, s)

/-- Source lines 143-148. -/
def bit_i810i2c_getsda (E : Env σ) (_data : Nat) (s : State σ) :
    Except Fault (Int × State σ) := do
  let s ← outlong E SDA_DIR_MASK I810_GPIOB s
  let s ← outlong E 0 I810_GPIOB s
  let (r, s) ← readlong E I810_GPIOB s
  pure (if 0 ≠ (r &&& SDA_VAL_IN) then 1 else 0, s)

/-- Source lines 150-155. -/
def bit_i810ddc_setscl (E : Env σ) (_data : Nat) (val : Int) (s : State σ) :
    Except Fault (State σ) := do
  let s ← outlong E ((if val ≠ 0 then SCL_VAL_OUT else 0) ||| SCL_DIR ||| SCL_DIR_MASK
              ||| SCL_VAL_MASK) I810_GPIOA s
  let (_, s) ← readlong E I810_GPIOA s
  pure s

/-- Source lines 157-162. -/
def bit_i810ddc_setsda (E : Env σ) (_data : Nat) (val : Int) (s : State σ) :
    Except Fault (State σ) := do
  let s ← outlong E ((if val ≠ 0 then SDA_VAL_OUT else 0) ||| SDA_DIR ||| SDA_DIR_MASK
              ||| SDA_VAL_MASK) I810_GPIOA s
  let (_, s) ← readlong E I810_GPIOA s
  pure s

/-- Source lines 164-169. -/
def bit_i810ddc_getscl (E : Env σ) (_data : Nat) (s : State σ) :
    Except Fault (Int × State σ) := do
  let s ← outlong E SCL_DIR_MASK I810_GPIOA s
  let s ← outlong E 0 I810_GPIOA s
  let (r, s) ← readlong E I810_GPIOA s
  pure (if 0 ≠ (r &&& SCL_VAL_IN) then 1 else 0, s)

/-- Source lines 171-176. -/
def bit_i810ddc_getsda (E : Env σ) (_data : Nat) (s : State σ) :
    Except Fault (Int × State σ) := do
  let s ← outlong E SDA_DIR_MASK I810_GPIOA s
  let s ← outlong E 0 I810_GPIOA s
  let (r, s) ← readlong E I810_GPIOA s
  pure (if 0 ≠ (r &&& SDA_VAL_IN) then 1 else 0, s)

/-! ## Attach / detach -/

/-- Modelled from the spec: the kernel header constant `PCI_BASE_ADDRESS_MEM_MASK`
is not part of the repository; the headers define it as `~0x0fUL`, here the
complement of `0x0f` in an `unsigned long` of `bits` bits. -/
def PCI_BASE_ADDRESS_MEM_MASK (bits : Nat) : Nat := (2 ^ bits - 1) ^^^ 0x0f

/-- The part of `struct pci_dev` the driver reads: `resource[i].start`. -/
structure pci_dev where
  resource_start : Nat → Nat

/-- Source lines 185-187: the address handed to `ioremap_nocache`. -/
def config_cadr (E : Env σ) (dev : pci_dev) : Nat :=
  let cadr := dev.resource_start 1 % 2 ^ E.BITS_PER_LONG
  let cadr := (cadr + I810_IOCONTROL_OFFSET) % 2 ^ E.BITS_PER_LONG
  let cadr := cadr &&& PCI_BASE_ADDRESS_MEM_MASK E.BITS_PER_LONG
  cadr

/-- Source lines 180-195. -/
def config_i810 (E : Env σ) (dev : pci_dev) (s : State σ) : Except Fault (State σ) :=
  let cadr := config_cadr E dev
  let s := { s with mem := E.ioremap_nocache cadr 0x1000,
                    trace := s.trace ++ [Event.ioremap_nocache cadr 0x1000] }
  match s.mem with
  | some _ => do
    let s ← bit_i810i2c_setscl E 0 1 s
    let s ← bit_i810i2c_setsda E 0 1 s
    let s ← bit_i810ddc_setscl E 0 1 s
    let s ← bit_i810ddc_setsda E 0 1 s
    pure s
  | none => pure s

/-- The callback bundle `struct i2c_algo_bit_data`. -/
structure i2c_algo_bit_data (σ : Type) where
  setsda : Nat → Int → State σ → Except Fault (State σ)
  setscl : Nat → Int → State σ → Except Fault (State σ)
  getsda : Nat → State σ → Except Fault (Int × State σ)
  getscl : Nat → State σ → Except Fault (Int × State σ)
  udelay : Nat
  mdelay : Nat
  timeout : Nat

/-- The fields of `struct i2c_adapter` the driver fills in, without `.owner`
and `.id`, whose values are constants of headers outside the repository. -/
structure i2c_adapter (σ : Type) where
  name : String
  algo_data : i2c_algo_bit_data σ

/-- Source lines 198-206; `TIMEOUT` is `HZ / 2`. -/
def i810_i2c_bit_data (E : Env σ) : i2c_algo_bit_data σ where
  setsda := bit_i810i2c_setsda E
  setscl := bit_i810i2c_setscl E
  getsda := bit_i810i2c_getsda E
  getscl := bit_i810i2c_getscl E
  udelay := CYCLE_DELAY
  mdelay := CYCLE_DELAY
  timeout := E.HZ / 2

/-- Source lines 208-213. -/
def i810_i2c_adapter (E : Env σ) : i2c_adapter σ where
  name := "I810/I815 I2C Adapter"
  algo_data := i810_i2c_bit_data E

/-- Source lines 215-223. -/
def i810_ddc_bit_data (E : Env σ) : i2c_algo_bit_data σ where
  setsda := bit_i810ddc_setsda E
  setscl := bit_i810ddc_setscl E
  getsda := bit_i810ddc_getsda E
  getscl := bit_i810ddc_getscl E
  udelay := CYCLE_DELAY
  mdelay := CYCLE_DELAY
  timeout := E.HZ / 2

/-- Source lines 225-230. -/
def i810_ddc_adapter (E : Env σ) : i2c_adapter σ where
  name := "I810/I815 DDC Adapter"
  algo_data := i810_ddc_bit_data E

/-- The external bit-banging engine's registration call, recorded as an action
that names the adapter handed over. -/
def i2c_bit_add_bus (a : i2c_adapter σ) (s : State σ) : State σ :=
  { s with trace := s.trace ++ [Event.i2c_bit_add_bus a.name] }

/-- The external engine's unregistration call. -/
def i2c_bit_del_bus (a : i2c_adapter σ) (s : State σ) : State σ :=
  { s with trace := s.trace ++ [Event.i2c_bit_del_bus a.name] }

/-- The kernel log call. -/
def printk (msg : String) (s : State σ) : State σ :=
  { s with trace := s.trace ++ [Event.printk msg] }

/-- Source lines 237-244. The function has no `return` statement, so only its
effect on the state is modelled. -/
def i810_probe (E : Env σ) (dev : pci_dev) (s : State σ) : Except Fault (State σ) := do
  let s ← config_i810 E dev s
  let s := printk "i2c-i810.o: i810/i815 found.\n" s
  let s := i2c_bit_add_bus (i810_i2c_adapter E) s
  let s := i2c_bit_add_bus (i810_ddc_adapter E) s
  pure s

/-- Source lines 246-250. -/
def i810_remove (E : Env σ) (s : State σ) : State σ :=
  let s := i2c_bit_del_bus (i810_ddc_adapter E) s
  let s := i2c_bit_del_bus (i810_i2c_adapter E) s
  s

/-! ## Sequences of callback invocations -/

/-- The two logical buses. -/
inductive Bus where
  | i2c
  | ddc
  deriving DecidableEq, Repr

/-- The two lines of a bus. -/
inductive Line where
  | scl
  | sda
  deriving DecidableEq, Repr

/-- Callback bundle of each bus, as bound by the two adapters. -/
def bit_data (E : Env σ) : Bus → i2c_algo_bit_data σ
  | .i2c => (i810_i2c_adapter E).algo_data
  | .ddc => (i810_ddc_adapter E).algo_data

/-- One invocation, by the engine, of a callback of a bundle. -/
inductive Call where
  | setsda (val : Int)
  | setscl (val : Int)
  | getsda
  | getscl
  deriving DecidableEq, Repr

/-- Invoke one callback of bundle `b`; a getter's result is dropped. -/
def Call.run (b : i2c_algo_bit_data σ) (data : Nat) : Call → State σ → Except Fault (State σ)
  | .setsda val, s => b.setsda data val s
  | .setscl val, s => b.setscl data val s
  | .getsda, s => (b.getsda data s).map Prod.snd
  | .getscl, s => (b.getscl data s).map Prod.snd

/-- Invoke a sequence of callbacks of one bundle. -/
def runBus (b : i2c_algo_bit_data σ) (data : Nat) : List Call → State σ → Except Fault (State σ)
  | [], s => .ok s
  | c :: cs, s => do
    let s ← c.run b data s
    runBus b data cs s

/-- Invoke an interleaved sequence of callbacks of both bundles; every action
each invocation adds to the trace is returned tagged with the bus whose
callback issued it. -/
def runCalls (E : Env σ) (data : Nat) :
    List (Bus × Call) → State σ → Except Fault (List (Bus × Event) × State σ)
  | [], s => .ok ([], s)
  | (b, c) :: cs, s => do
    let s1 ← c.run (bit_data E b) data s
    let (tags, s2) ← runCalls E data cs s1
    pure ((s1.trace.drop s.trace.length).map (fun e => (b, e)) ++ tags, s2)

/-- Register offset of a store or load action. -/
def Event.offset : Event → Option Nat
  | .outlong _ off => some off
  | .readlong off => some off
  | _ => none

/-- Register offset each bus's primitives use in the source. -/
def busOffset : Bus → Nat
  | .i2c => I810_GPIOB
  | .ddc => I810_GPIOA

/-- A hardware block without state whose loads deliver `0`; used for concrete
runs in which only the trace matters. -/
def unitEnv (ioremap : Nat → Nat → Option Nat) (bits hz : Nat) : Env Unit where
  store := fun _ _ _ => ()
  load := fun _ _ => (0, ())
  ioremap_nocache := ioremap
  BITS_PER_LONG := bits
  HZ := hz

/-- Modelled from the spec: the kernel header constant `PAGE_MASK` is not part
of the repository; it is the complement of `PAGE_SIZE - 1` for the page size
`0x1000`, in an `unsigned long` of `bits` bits. -/
def PAGE_MASK (bits : Nat) : Nat := (2 ^ bits - 1) ^^^ 0xfff

/-! ## Trace shapes of a primitive -/

/-- On every mapped state, `f` succeeds with exactly two register accesses:
a store of `w` at `off`, then a load at `off`; `mem` is left as it was. -/
def WritesThenFlushes (E : Env σ) (f : State σ → Except Fault (State σ)) (w off : Nat) : Prop :=
  ∀ (base : Nat) (hw : σ) (tr : List Event),
    f ⟨some base, hw, tr⟩ =
      .ok ⟨some base, (E.load (E.store hw off w) off).2,
           tr ++ [Event.outlong w off, Event.readlong off]⟩

/-- On every mapped state, `f` succeeds with exactly three register accesses:
a store of `w` at `off`, a store of `0` at `off`, then a load at `off`; with
`r` the word that load delivers, `f` returns `1` when bit number `bit` of `r`
is set and `0` otherwise. -/
def WritesZeroReads (E : Env σ) (f : State σ → Except Fault (Int × State σ))
    (w off bit : Nat) : Prop :=
  ∀ (base : Nat) (hw : σ) (tr : List Event),
    f ⟨some base, hw, tr⟩ =
      .ok (if (E.load (E.store (E.store hw off w) off 0) off).1.testBit bit then 1 else 0,
           ⟨some base, (E.load (E.store (E.store hw off w) off 0) off).2,
            tr ++ [Event.outlong w off, Event.outlong 0 off, Event.readlong off]⟩)

/-! ## Theorems -/

/-! ### Evaluation lemmas -/

theorem u32_testBit (r k : Nat) (hk : k < 32) : (u32 r).testBit k = r.testBit k := by
  unfold u32
  rw [Nat.testBit_mod_two_pow]
  simp [hk]

theorem ne_and_two_pow_iff (r k : Nat) (hk : k < 32) :
    0 ≠ (u32 r &&& 2 ^ k) ↔ r.testBit k = true := by
  rw [Nat.and_two_pow, u32_testBit r k hk]
  cases r.testBit k
  · simp
  · simpa using (Nat.two_pow_pos k).ne

theorem scl_in_test (r : Nat) : (0 ≠ (u32 r &&& SCL_VAL_IN)) ↔ r.testBit 4 = true := by
  have h := ne_and_two_pow_iff r 4 (by decide)
  simpa [SCL_VAL_IN] using h

theorem sda_in_test (r : Nat) : (0 ≠ (u32 r &&& SDA_VAL_IN)) ↔ r.testBit 12 = true := by
  have h := ne_and_two_pow_iff r 12 (by decide)
  simpa [SDA_VAL_IN] using h

theorem i2c_setscl_shape (E : Env σ) (data : Nat) (val : Int) :
    WritesThenFlushes E (bit_i810i2c_setscl E data val) (if val ≠ 0 then 0x000F else 0x0007)
      0x14 := by
  intro base hw tr
  by_cases h : val = 0 <;>
    simp [bit_i810i2c_setscl, outlong, readlong, h, u32, bind, Except.bind, pure, Except.pure,
      I810_GPIOB, SCL_VAL_OUT, SCL_DIR, SCL_DIR_MASK, SCL_VAL_MASK]

theorem i2c_setsda_shape (E : Env σ) (data : Nat) (val : Int) :
    WritesThenFlushes E (bit_i810i2c_setsda E data val) (if val ≠ 0 then 0x0F00 else 0x0700)
      0x14 := by
  intro base hw tr
  by_cases h : val = 0 <;>
    simp [bit_i810i2c_setsda, outlong, readlong, h, u32, bind, Except.bind, pure, Except.pure,
      I810_GPIOB, SDA_VAL_OUT, SDA_DIR, SDA_DIR_MASK, SDA_VAL_MASK]

theorem ddc_setscl_shape (E : Env σ) (data : Nat) (val : Int) :
    WritesThenFlushes E (bit_i810ddc_setscl E data val) (if val ≠ 0 then 0x000F else 0x0007)
      0x10 := by
  intro base hw tr
  by_cases h : val = 0 <;>
    simp [bit_i810ddc_setscl, outlong, readlong, h, u32, bind, Except.bind, pure, Except.pure,
      I810_GPIOA, SCL_VAL_OUT, SCL_DIR, SCL_DIR_MASK, SCL_VAL_MASK]

theorem ddc_setsda_shape (E : Env σ) (data : Nat) (val : Int) :
    WritesThenFlushes E (bit_i810ddc_setsda E data val) (if val ≠ 0 then 0x0F00 else 0x0700)
      0x10 := by
  intro base hw tr
  by_cases h : val = 0 <;>
    simp [bit_i810ddc_setsda, outlong, readlong, h, u32, bind, Except.bind, pure, Except.pure,
      I810_GPIOA, SDA_VAL_OUT, SDA_DIR, SDA_DIR_MASK, SDA_VAL_MASK]

theorem i2c_getscl_shape (E : Env σ) (data : Nat) :
    WritesZeroReads E (bit_i810i2c_getscl E data) 0x0001 0x14 4 := by
  intro base hw tr
  simp only [bit_i810i2c_getscl, outlong, readlong, bind, Except.bind, pure, Except.pure,
    scl_in_test]
  simp [u32, I810_GPIOB, SCL_DIR_MASK]

theorem i2c_getsda_shape (E : Env σ) (data : Nat) :
    WritesZeroReads E (bit_i810i2c_getsda E data) 0x0100 0x14 12 := by
  intro base hw tr
  simp only [bit_i810i2c_getsda, outlong, readlong, bind, Except.bind, pure, Except.pure,
    sda_in_test]
  simp [u32, I810_GPIOB, SDA_DIR_MASK]

theorem ddc_getscl_shape (E : Env σ) (data : Nat) :
    WritesZeroReads E (bit_i810ddc_getscl E data) 0x0001 0x10 4 := by
  intro base hw tr
  simp only [bit_i810ddc_getscl, outlong, readlong, bind, Except.bind, pure, Except.pure,
    scl_in_test]
  simp [u32, I810_GPIOA, SCL_DIR_MASK]

theorem ddc_getsda_shape (E : Env σ) (data : Nat) :
    WritesZeroReads E (bit_i810ddc_getsda E data) 0x0100 0x10 12 := by
  intro base hw tr
  simp only [bit_i810ddc_getsda, outlong, readlong, bind, Except.bind, pure, Except.pure,
    sda_in_test]
  simp [u32, I810_GPIOA, SDA_DIR_MASK]

/-! ### Set primitives -/

/-- C1: each of the four set primitives, for every value, performs exactly two
register accesses: a 32-bit store, to its bus's register offset, of the word
direction-out | direction-enable | value-enable | (output-value-high when the
value is non-zero), then a load of the same offset. The word is `0x000F` /
`0x0007` for the clock line and `0x0F00` / `0x0700` for the data line. -/
theorem set_primitives_write_then_flush (E : Env σ) (data : Nat) (val : Int) :
    WritesThenFlushes E (bit_i810i2c_setscl E data val)
        (SCL_DIR ||| SCL_DIR_MASK ||| SCL_VAL_MASK ||| (if val ≠ 0 then SCL_VAL_OUT else 0))
        I810_GPIOB
    ∧ WritesThenFlushes E (bit_i810i2c_setsda E data val)
        (SDA_DIR ||| SDA_DIR_MASK ||| SDA_VAL_MASK ||| (if val ≠ 0 then SDA_VAL_OUT else 0))
        I810_GPIOB
    ∧ WritesThenFlushes E (bit_i810ddc_setscl E data val)
        (SCL_DIR ||| SCL_DIR_MASK ||| SCL_VAL_MASK ||| (if val ≠ 0 then SCL_VAL_OUT else 0))
        I810_GPIOA
    ∧ WritesThenFlushes E (bit_i810ddc_setsda E data val)
        (SDA_DIR ||| SDA_DIR_MASK ||| SDA_VAL_MASK ||| (if val ≠ 0 then SDA_VAL_OUT else 0))
        I810_GPIOA
    ∧ SCL_DIR ||| SCL_DIR_MASK ||| SCL_VAL_MASK ||| SCL_VAL_OUT = 0x000F
    ∧ SCL_DIR ||| SCL_DIR_MASK ||| SCL_VAL_MASK ||| 0 = 0x0007
    ∧ SDA_DIR ||| SDA_DIR_MASK ||| SDA_VAL_MASK ||| SDA_VAL_OUT = 0x0F00
    ∧ SDA_DIR ||| SDA_DIR_MASK ||| SDA_VAL_MASK ||| 0 = 0x0700 := by
  have h1 := i2c_setscl_shape E data val
  have h2 := i2c_setsda_shape E data val
  have h3 := ddc_setscl_shape E data val
  have h4 := ddc_setsda_shape E data val
  refine ⟨?_, ?_, ?_, ?_, by decide, by decide, by decide, by decide⟩
  · by_cases h : val = 0 <;>
      simpa [h, SCL_DIR, SCL_DIR_MASK, SCL_VAL_MASK, SCL_VAL_OUT, I810_GPIOB] using h1
  · by_cases h : val = 0 <;>
      simpa [h, SDA_DIR, SDA_DIR_MASK, SDA_VAL_MASK, SDA_VAL_OUT, I810_GPIOB] using h2
  · by_cases h : val = 0 <;>
      simpa [h, SCL_DIR, SCL_DIR_MASK, SCL_VAL_MASK, SCL_VAL_OUT, I810_GPIOA] using h3
  · by_cases h : val = 0 <;>
      simpa [h, SDA_DIR, SDA_DIR_MASK, SDA_VAL_MASK, SDA_VAL_OUT, I810_GPIOA] using h4

/-! ### Get primitives -/

/-- C2: each of the four get primitives performs exactly three register
accesses on its bus's register offset: a store of the word holding only the
line's direction-enable bit (`0x0001` clock, `0x0100` data), a store of `0`,
then a load; it returns `1` when the loaded word has the line's input-value bit
set (bit 4, `0x0010`, for clock; bit 12, `0x1000`, for data) and `0` otherwise,
whatever the other bits of that word. -/
theorem get_primitives_write_zero_read (E : Env σ) (data : Nat) :
    WritesZeroReads E (bit_i810i2c_getscl E data) SCL_DIR_MASK I810_GPIOB 4
    ∧ WritesZeroReads E (bit_i810i2c_getsda E data) SDA_DIR_MASK I810_GPIOB 12
    ∧ WritesZeroReads E (bit_i810ddc_getscl E data) SCL_DIR_MASK I810_GPIOA 4
    ∧ WritesZeroReads E (bit_i810ddc_getsda E data) SDA_DIR_MASK I810_GPIOA 12
    ∧ SCL_DIR_MASK = 0x0001 ∧ SDA_DIR_MASK = 0x0100
    ∧ SCL_DIR_MASK &&& (SCL_DIR ||| SCL_VAL_MASK) = 0
    ∧ SDA_DIR_MASK &&& (SDA_DIR ||| SDA_VAL_MASK) = 0
    ∧ SCL_VAL_IN = 2 ^ 4 ∧ SCL_VAL_IN = 0x0010
    ∧ SDA_VAL_IN = 2 ^ 12 ∧ SDA_VAL_IN = 0x1000 :=
  ⟨i2c_getscl_shape E data, i2c_getsda_shape E data, ddc_getscl_shape E data,
    ddc_getsda_shape E data, rfl, rfl, by decide, by decide, by decide, rfl, by decide, rfl⟩

/-! ### The DDC data release word -/

/-- C8, as stated, fails: on a mapped window `bit_i810ddc_setsda` with value `1`
stores `0x0F00`, and no store of `0x0A00` occurs. -/
theorem ddc_setsda_true_not_0A00 :
    (bit_i810ddc_setsda (unitEnv (fun a _ => some a) 32 100) 0 1 ⟨some 0, (), []⟩).map
        (fun s => s.trace)
      = .ok [Event.outlong 0x0F00 0x10, Event.readlong 0x10]
    ∧ Event.outlong 0x0A00 0x10 ∉ [Event.outlong 0x0F00 0x10, Event.readlong 0x10] := by
  refine ⟨rfl, by decide⟩

/-- C8 amended: `bit_i810ddc_setsda` with a non-zero value stores `0x0F00`
(direction-enable | direction-out | value-enable | value-high) to the register
at `I810_GPIOA` and then loads that register. -/
theorem ddc_setsda_true_writes_0F00 (E : Env σ) (data : Nat) (val : Int) (hval : val ≠ 0) :
    WritesThenFlushes E (bit_i810ddc_setsda E data val) 0x0F00 I810_GPIOA
    ∧ SDA_DIR_MASK ||| SDA_DIR ||| SDA_VAL_MASK ||| SDA_VAL_OUT = 0x0F00 := by
  have h := ddc_setsda_shape E data val
  refine ⟨?_, by decide⟩
  simpa [hval, I810_GPIOA] using h

/-- Witness for `ddc_setsda_true_writes_0F00` at value `1`. -/
theorem ddc_setsda_true_writes_0F00_witness :
    (1 : Int) ≠ 0
    ∧ WritesThenFlushes (unitEnv (fun a _ => some a) 32 100)
        (bit_i810ddc_setsda (unitEnv (fun a _ => some a) 32 100) 0 1) 0x0F00 I810_GPIOA
    ∧ SDA_DIR_MASK ||| SDA_DIR ||| SDA_VAL_MASK ||| SDA_VAL_OUT = 0x0F00 :=
  ⟨by decide, ddc_setsda_true_writes_0F00 (unitEnv (fun a _ => some a) 32 100) 0 1 (by decide)⟩

/-! ### Purity and frame of the set word -/

/-- C10: there is a word function of (line, truth value) alone such that, for
every hardware, bus, argument and prior register content, a set primitive
performs its store of that word first (no load before it) and then one load;
the clock word has no bit outside `0x000F`, the data word none outside
`0x0F00`, and neither has an input-value bit (`0x0010`, `0x1000`). -/
theorem set_word_pure_and_framed :
    ∃ word : Line → Bool → Nat,
      (∀ (τ : Type) (E : Env τ) (data : Nat) (val : Int),
        WritesThenFlushes E (bit_i810i2c_setscl E data val) (word .scl (decide (val ≠ 0)))
            I810_GPIOB
        ∧ WritesThenFlushes E (bit_i810i2c_setsda E data val) (word .sda (decide (val ≠ 0)))
            I810_GPIOB
        ∧ WritesThenFlushes E (bit_i810ddc_setscl E data val) (word .scl (decide (val ≠ 0)))
            I810_GPIOA
        ∧ WritesThenFlushes E (bit_i810ddc_setsda E data val) (word .sda (decide (val ≠ 0)))
            I810_GPIOA)
      ∧ (∀ v : Bool,
          word .scl v ||| 0x000F = 0x000F
          ∧ word .scl v &&& (SDA_DIR_MASK ||| SDA_DIR ||| SDA_VAL_MASK ||| SDA_VAL_OUT) = 0
          ∧ word .scl v &&& (SCL_VAL_IN ||| SDA_VAL_IN) = 0
          ∧ word .sda v ||| 0x0F00 = 0x0F00
          ∧ word .sda v &&& (SCL_DIR_MASK ||| SCL_DIR ||| SCL_VAL_MASK ||| SCL_VAL_OUT) = 0
          ∧ word .sda v &&& (SCL_VAL_IN ||| SDA_VAL_IN) = 0) := by
  refine ⟨fun l v => match l, v with
    | .scl, true => 0x000F
    | .scl, false => 0x0007
    | .sda, true => 0x0F00
    | .sda, false => 0x0700, ?_, ?_⟩
  · intro τ E data val
    have h1 := i2c_setscl_shape E data val
    have h2 := i2c_setsda_shape E data val
    have h3 := ddc_setscl_shape E data val
    have h4 := ddc_setsda_shape E data val
    by_cases h : val = 0
    · subst h
      exact ⟨by simpa [I810_GPIOB] using h1, by simpa [I810_GPIOB] using h2,
        by simpa [I810_GPIOA] using h3, by simpa [I810_GPIOA] using h4⟩
    · simp only [ne_eq, h, not_false_eq_true, if_true] at h1 h2 h3 h4
      simp only [ne_eq, h, not_false_eq_true, decide_True]
      exact ⟨by simpa [I810_GPIOB] using h1, by simpa [I810_GPIOB] using h2,
        by simpa [I810_GPIOA] using h3, by simpa [I810_GPIOA] using h4⟩
  · intro v
    cases v <;> decide

/-! ### Register offsets of the two callback bundles -/

theorem call_run_offsets (E : Env σ) (b : Bus) (c : Call) (data base : Nat) (hw : σ)
    (tr : List Event) :
    ∃ (hw1 : σ) (new : List Event),
      c.run (bit_data E b) data ⟨some base, hw, tr⟩ = .ok ⟨some base, hw1, tr ++ new⟩
      ∧ new ≠ []
      ∧ ∀ e ∈ new, e.offset = some (busOffset b) := by
  cases b <;> cases c
  case i2c.setsda val =>
    refine ⟨_, _, i2c_setsda_shape E data val base hw tr, by simp, ?_⟩
    simp [Event.offset, busOffset, I810_GPIOB]
  case i2c.setscl val =>
    refine ⟨_, _, i2c_setscl_shape E data val base hw tr, by simp, ?_⟩
    simp [Event.offset, busOffset, I810_GPIOB]
  case ddc.setsda val =>
    refine ⟨_, _, ddc_setsda_shape E data val base hw tr, by simp, ?_⟩
    simp [Event.offset, busOffset, I810_GPIOA]
  case ddc.setscl val =>
    refine ⟨_, _, ddc_setscl_shape E data val base hw tr, by simp, ?_⟩
    simp [Event.offset, busOffset, I810_GPIOA]
  case i2c.getsda =>
    refine ⟨(E.load (E.store (E.store hw 0x14 0x0100) 0x14 0) 0x14).2,
      [Event.outlong 0x0100 0x14, Event.outlong 0 0x14, Event.readlong 0x14], ?_, ?_, ?_⟩
    · show Except.map Prod.snd (bit_i810i2c_getsda E data ⟨some base, hw, tr⟩) = _
      rw [i2c_getsda_shape E data base hw tr]
      rfl
    · simp
    · simp [Event.offset, busOffset, I810_GPIOB]
  case i2c.getscl =>
    refine ⟨(E.load (E.store (E.store hw 0x14 0x0001) 0x14 0) 0x14).2,
      [Event.outlong 0x0001 0x14, Event.outlong 0 0x14, Event.readlong 0x14], ?_, ?_, ?_⟩
    · show Except.map Prod.snd (bit_i810i2c_getscl E data ⟨some base, hw, tr⟩) = _
      rw [i2c_getscl_shape E data base hw tr]
      rfl
    · simp
    · simp [Event.offset, busOffset, I810_GPIOB]
  case ddc.getsda =>
    refine ⟨(E.load (E.store (E.store hw 0x10 0x0100) 0x10 0) 0x10).2,
      [Event.outlong 0x0100 0x10, Event.outlong 0 0x10, Event.readlong 0x10], ?_, ?_, ?_⟩
    · show Except.map Prod.snd (bit_i810ddc_getsda E data ⟨some base, hw, tr⟩) = _
      rw [ddc_getsda_shape E data base hw tr]
      rfl
    · simp
    · simp [Event.offset, busOffset, I810_GPIOA]
  case ddc.getscl =>
    refine ⟨(E.load (E.store (E.store hw 0x10 0x0001) 0x10 0) 0x10).2,
      [Event.outlong 0x0001 0x10, Event.outlong 0 0x10, Event.readlong 0x10], ?_, ?_, ?_⟩
    · show Except.map Prod.snd (bit_i810ddc_getscl E data ⟨some base, hw, tr⟩) = _
      rw [ddc_getscl_shape E data base hw tr]
      rfl
    · simp
    · simp [Event.offset, busOffset, I810_GPIOA]

theorem runBus_offsets (E : Env σ) (b : Bus) (data base : Nat) (cs : List Call) :
    ∀ (hw : σ) (tr : List Event),
      ∃ (hw1 : σ) (new : List Event),
        runBus (bit_data E b) data cs ⟨some base, hw, tr⟩ = .ok ⟨some base, hw1, tr ++ new⟩
        ∧ (cs ≠ [] → new ≠ [])
        ∧ ∀ e ∈ new, e.offset = some (busOffset b) := by
  induction cs with
  | nil =>
    intro hw tr
    exact ⟨hw, [], by simp [runBus], by simp, by simp⟩
  | cons c cs ih =>
    intro hw tr
    obtain ⟨hw1, new1, h1, hne, hoff1⟩ := call_run_offsets E b c data base hw tr
    obtain ⟨hw2, new2, h2, _, hoff2⟩ := ih hw1 (tr ++ new1)
    refine ⟨hw2, new1 ++ new2, ?_, ?_, ?_⟩
    · simp only [runBus, h1, bind, Except.bind, h2, List.append_assoc]
    · intro _
      simp [hne]
    · intro e he
      rcases List.mem_append.mp he with h | h
      · exact hoff1 e h
      · exact hoff2 e h

theorem runCalls_offsets (E : Env σ) (data base : Nat) (cs : List (Bus × Call)) :
    ∀ (hw : σ) (tr : List Event),
      ∃ (tags : List (Bus × Event)) (hw1 : σ),
        runCalls E data cs ⟨some base, hw, tr⟩
          = .ok (tags, ⟨some base, hw1, tr ++ tags.map Prod.snd⟩)
        ∧ (cs ≠ [] → tags ≠ [])
        ∧ ∀ t ∈ tags, t.2.offset = some (busOffset t.1) := by
  induction cs with
  | nil =>
    intro hw tr
    exact ⟨[], hw, by simp [runCalls], by simp, by simp⟩
  | cons bc cs ih =>
    intro hw tr
    obtain ⟨b, c⟩ := bc
    obtain ⟨hw1, new1, h1, hne, hoff1⟩ := call_run_offsets E b c data base hw tr
    obtain ⟨tags2, hw2, h2, _, hoff2⟩ := ih hw1 (tr ++ new1)
    refine ⟨new1.map (fun e => (b, e)) ++ tags2, hw2, ?_, ?_, ?_⟩
    · simp only [runCalls, h1, bind, Except.bind, h2, pure, Except.pure]
      simp [Function.comp_def]
    · intro _
      simp [hne]
    · intro t ht
      rcases List.mem_append.mp ht with h | h
      · obtain ⟨e, he, rfl⟩ := List.mem_map.mp h
        exact hoff1 e he
      · exact hoff2 t h

/-- C3, as stated, fails: the clock setter bound to the adapter named
"I810/I815 I2C Adapter" stores to offset `0x14` (and accesses nothing at
`0x10`); the one bound to "I810/I815 DDC Adapter" stores to offset `0x10`. -/
theorem i2c_adapter_writes_0x14 :
    (i810_i2c_adapter (unitEnv (fun a _ => some a) 32 100)).name = "I810/I815 I2C Adapter"
    ∧ ((i810_i2c_adapter (unitEnv (fun a _ => some a) 32 100)).algo_data.setscl 0 1
          ⟨some 0, (), []⟩).map (fun s => s.trace)
        = .ok [Event.outlong 0x000F 0x14, Event.readlong 0x14]
    ∧ (i810_ddc_adapter (unitEnv (fun a _ => some a) 32 100)).name = "I810/I815 DDC Adapter"
    ∧ ((i810_ddc_adapter (unitEnv (fun a _ => some a) 32 100)).algo_data.setscl 0 1
          ⟨some 0, (), []⟩).map (fun s => s.trace)
        = .ok [Event.outlong 0x000F 0x10, Event.readlong 0x10] :=
  ⟨rfl, rfl, rfl, rfl⟩

/-- C3 amended: for every sequence of invocations, with any arguments, of the
four callbacks bound to the adapter named "I810/I815 I2C Adapter", every
action added to the trace is a store or load at offset `0x14` and none is at
`0x10`; for the adapter named "I810/I815 DDC Adapter" every action is a store
or load at offset `0x10` and none is at `0x14`. -/
theorem adapter_offsets (E : Env σ) (data base : Nat) (cs : List Call) (hw : σ)
    (tr : List Event) :
    (i810_i2c_adapter E).name = "I810/I815 I2C Adapter"
    ∧ (∃ (hw1 : σ) (new : List Event),
        runBus (i810_i2c_adapter E).algo_data data cs ⟨some base, hw, tr⟩
          = .ok ⟨some base, hw1, tr ++ new⟩
        ∧ ∀ e ∈ new, e.offset = some 0x14 ∧ e.offset ≠ some 0x10)
    ∧ (i810_ddc_adapter E).name = "I810/I815 DDC Adapter"
    ∧ (∃ (hw1 : σ) (new : List Event),
        runBus (i810_ddc_adapter E).algo_data data cs ⟨some base, hw, tr⟩
          = .ok ⟨some base, hw1, tr ++ new⟩
        ∧ ∀ e ∈ new, e.offset = some 0x10 ∧ e.offset ≠ some 0x14) := by
  refine ⟨rfl, ?_, rfl, ?_⟩
  · obtain ⟨hw1, new, h, _, hoff⟩ := runBus_offsets E .i2c data base cs hw tr
    refine ⟨hw1, new, h, fun e he => ?_⟩
    have := hoff e he
    simp [this, busOffset, I810_GPIOB]
  · obtain ⟨hw1, new, h, _, hoff⟩ := runBus_offsets E .ddc data base cs hw tr
    refine ⟨hw1, new, h, fun e he => ?_⟩
    have := hoff e he
    simp [this, busOffset, I810_GPIOA]

/-- C4: there are two distinct register offsets, one per bus, such that for
every finite interleaved sequence of invocations of the eight primitives with
arbitrary arguments, the run succeeds, the trace grows by exactly the tagged
actions, and every action issued by a callback of one bundle is a store or load
at that bus's offset and at no other bus's offset. -/
theorem bus_independence :
    ∃ off : Bus → Nat, off .i2c ≠ off .ddc ∧
      ∀ (τ : Type) (E : Env τ) (data base : Nat) (cs : List (Bus × Call)) (hw : τ)
        (tr : List Event),
        ∃ (tags : List (Bus × Event)) (hw1 : τ),
          runCalls E data cs ⟨some base, hw, tr⟩
            = .ok (tags, ⟨some base, hw1, tr ++ tags.map Prod.snd⟩)
          ∧ ∀ t ∈ tags, t.2.offset = some (off t.1)
              ∧ ∀ b : Bus, b ≠ t.1 → t.2.offset ≠ some (off b) := by
  refine ⟨busOffset, by decide, ?_⟩
  intro τ E data base cs hw tr
  obtain ⟨tags, hw1, h, _, hoff⟩ := runCalls_offsets E data base cs hw tr
  refine ⟨tags, hw1, h, fun t ht => ⟨hoff t ht, fun b hb => ?_⟩⟩
  rw [hoff t ht]
  intro hcontra
  apply hb
  have hinj : busOffset t.1 = busOffset b := Option.some.inj hcontra
  revert hinj
  cases b <;> cases t.1 <;> simp [busOffset, I810_GPIOA, I810_GPIOB]

/-! ### Attach -/

theorem config_i810_mapped (E : Env σ) (dev : pci_dev) (m : Option Nat) (hw : σ)
    (tr : List Event) (base : Nat)
    (hmap : E.ioremap_nocache (config_cadr E dev) 0x1000 = some base) :
    config_i810 E dev ⟨m, hw, tr⟩ =
      .ok ⟨some base,
        (E.load (E.store (E.load (E.store (E.load (E.store (E.load (E.store hw 0x14 0x000F)
          0x14).2 0x14 0x0F00) 0x14).2 0x10 0x000F) 0x10).2 0x10 0x0F00) 0x10).2,
        tr ++ [Event.ioremap_nocache (config_cadr E dev) 0x1000,
               Event.outlong 0x000F 0x14, Event.readlong 0x14,
               Event.outlong 0x0F00 0x14, Event.readlong 0x14,
               Event.outlong 0x000F 0x10, Event.readlong 0x10,
               Event.outlong 0x0F00 0x10, Event.readlong 0x10]⟩ := by
  have h1 := fun hw tr => i2c_setscl_shape E 0 1 base hw tr
  have h2 := fun hw tr => i2c_setsda_shape E 0 1 base hw tr
  have h3 := fun hw tr => ddc_setscl_shape E 0 1 base hw tr
  have h4 := fun hw tr => ddc_setsda_shape E 0 1 base hw tr
  simp only [ne_eq, one_ne_zero, not_false_eq_true, if_true] at h1 h2 h3 h4
  simp only [config_i810, hmap, bind, Except.bind, h1, h2, h3, h4, pure, Except.pure]
  simp

theorem probe_after_failed_map (E : Env σ) (dev : pci_dev) (m : Option Nat) (hw : σ)
    (tr : List Event) (hmap : E.ioremap_nocache (config_cadr E dev) 0x1000 = none) :
    i810_probe E dev ⟨m, hw, tr⟩ =
      .ok ⟨none, hw,
        tr ++ [Event.ioremap_nocache (config_cadr E dev) 0x1000,
               Event.printk "i2c-i810.o: i810/i815 found.\n",
               Event.i2c_bit_add_bus "I810/I815 I2C Adapter",
               Event.i2c_bit_add_bus "I810/I815 DDC Adapter"]⟩ := by
  simp [i810_probe, config_i810, hmap, bind, Except.bind, pure, Except.pure, printk,
    i2c_bit_add_bus, i810_i2c_adapter, i810_ddc_adapter]

/-- C5, evaluated on the code: when `ioremap_nocache` returns `NULL`,
`i810_probe` issues no register store, yet still hands both adapters to
`i2c_bit_add_bus`; a callback of a registered adapter then dereferences the
`NULL` `mem`. -/
theorem probe_registers_buses_after_failed_map :
    i810_probe (unitEnv (fun _ _ => none) 32 100) ⟨fun _ => 0x80000000⟩ ⟨none, (), []⟩
      = .ok ⟨none, (),
          [Event.ioremap_nocache 0x80005000 0x1000,
           Event.printk "i2c-i810.o: i810/i815 found.\n",
           Event.i2c_bit_add_bus "I810/I815 I2C Adapter",
           Event.i2c_bit_add_bus "I810/I815 DDC Adapter"]⟩
    ∧ (i810_i2c_adapter (unitEnv (fun _ _ => none) 32 100)).algo_data.getscl 0
          ⟨none, (),
            [Event.ioremap_nocache 0x80005000 0x1000,
             Event.printk "i2c-i810.o: i810/i815 found.\n",
             Event.i2c_bit_add_bus "I810/I815 I2C Adapter",
             Event.i2c_bit_add_bus "I810/I815 DDC Adapter"]⟩
        = .error Fault.nullDeref := by
  refine ⟨?_, rfl⟩
  have h := probe_after_failed_map (unitEnv (fun _ _ => none) 32 100) ⟨fun _ => 0x80000000⟩
    none () [] rfl
  have hc : config_cadr (unitEnv (fun _ _ => none) 32 100) ⟨fun _ => 0x80000000⟩ = 0x80005000 := by
    decide
  rw [hc] at h
  simpa using h

theorem and_compl_low_bits (x n k : Nat) (hx : x < 2 ^ n) :
    x &&& ((2 ^ n - 1) ^^^ (2 ^ k - 1)) = 2 ^ k * (x / 2 ^ k) := by
  apply Nat.eq_of_testBit_eq
  intro i
  rw [Nat.testBit_and, Nat.testBit_xor, Nat.testBit_two_pow_sub_one,
    Nat.testBit_two_pow_sub_one, Nat.testBit_mul_pow_two, ← Nat.shiftRight_eq_div_pow,
    Nat.testBit_shiftRight]
  by_cases hik : i < k
  · by_cases hin : i < n
    · simp [hik, hin, Nat.not_le.mpr hik]
    · have hxi : x.testBit i = false :=
        Nat.testBit_lt_two_pow (lt_of_lt_of_le hx (Nat.pow_le_pow_right (by decide)
          (Nat.le_of_not_lt hin)))
      simp [hxi, Nat.not_le.mpr hik]
  · have hki : k ≤ i := Nat.le_of_not_lt hik
    have hsum : k + (i - k) = i := by omega
    by_cases hin : i < n
    · simp [hik, hin, hki, hsum]
    · have hxi : x.testBit i = false :=
        Nat.testBit_lt_two_pow (lt_of_lt_of_le hx (Nat.pow_le_pow_right (by decide)
          (Nat.le_of_not_lt hin)))
      simp [hxi, hsum, hki]

theorem config_cadr_eq (E : Env σ) (dev : pci_dev) :
    config_cadr E dev =
      ((dev.resource_start 1 + 0x5000) % 2 ^ E.BITS_PER_LONG)
        &&& PCI_BASE_ADDRESS_MEM_MASK E.BITS_PER_LONG := by
  simp [config_cadr, I810_IOCONTROL_OFFSET]

theorem and_mem_mask (x bits : Nat) (hx : x < 2 ^ bits) :
    x &&& PCI_BASE_ADDRESS_MEM_MASK bits = 16 * (x / 16) := by
  have h := and_compl_low_bits x bits 4 hx
  simpa [PCI_BASE_ADDRESS_MEM_MASK] using h

theorem and_page_mask (x bits : Nat) (hx : x < 2 ^ bits) :
    x &&& PAGE_MASK bits = 0x1000 * (x / 0x1000) := by
  have h := and_compl_low_bits x bits 12 hx
  simpa [PAGE_MASK] using h

theorem config_maps_cadr (E : Env σ) (dev : pci_dev) (m : Option Nat) (hw : σ)
    (tr : List Event) :
    ∃ (s1 : State σ) (rest : List Event),
      config_i810 E dev ⟨m, hw, tr⟩ = .ok s1
      ∧ s1.mem = E.ioremap_nocache (config_cadr E dev) 0x1000
      ∧ s1.trace = tr ++ Event.ioremap_nocache (config_cadr E dev) 0x1000 :: rest := by
  cases hmap : E.ioremap_nocache (config_cadr E dev) 0x1000 with
  | none =>
    refine ⟨⟨none, hw, tr ++ [Event.ioremap_nocache (config_cadr E dev) 0x1000]⟩, [], ?_, rfl, rfl⟩
    simp [config_i810, hmap, pure, Except.pure]
  | some base =>
    exact ⟨_, [Event.outlong 0x000F 0x14, Event.readlong 0x14,
      Event.outlong 0x0F00 0x14, Event.readlong 0x14,
      Event.outlong 0x000F 0x10, Event.readlong 0x10,
      Event.outlong 0x0F00 0x10, Event.readlong 0x10],
      config_i810_mapped E dev m hw tr base hmap, rfl, by simp⟩

/-- C7, as stated, fails: for the start address `0x80000010` (32-bit
`unsigned long`) the address `config_i810` maps is `0x80005010`, which is
neither `(s + 0x5000) & PAGE_MASK` nor a multiple of `0x1000`. -/
theorem cadr_not_page_masked :
    config_cadr (unitEnv (fun a _ => some a) 32 100) ⟨fun _ => 0x80000010⟩ = 0x80005010
    ∧ config_cadr (unitEnv (fun a _ => some a) 32 100) ⟨fun _ => 0x80000010⟩
        ≠ ((0x80000010 + 0x5000) % 2 ^ 32) &&& PAGE_MASK 32
    ∧ ¬ (0x1000 ∣ config_cadr (unitEnv (fun a _ => some a) 32 100) ⟨fun _ => 0x80000010⟩) := by
  decide

/-- C7 amended: for every start address `s` of the second resource region, with
`x = (s + 0x5000)` as an `unsigned long`, the address `config_i810` maps is
`x & ~0x0f`, the largest multiple of 16 not above `x`; the mapped length is
`0x1000`; whenever `x mod 0x1000 < 16` (in particular for every page-aligned
`s`) that address equals `x & PAGE_MASK` and is a multiple of `0x1000`; for
`s = 0x80000000` and an `unsigned long` of at least 32 bits it is `0x80005000`. -/
theorem cadr_mem_masked (E : Env σ) (dev : pci_dev) (m : Option Nat) (hw : σ)
    (tr : List Event) :
    config_cadr E dev
        = ((dev.resource_start 1 + 0x5000) % 2 ^ E.BITS_PER_LONG)
            &&& PCI_BASE_ADDRESS_MEM_MASK E.BITS_PER_LONG
    ∧ config_cadr E dev = 16 * (((dev.resource_start 1 + 0x5000) % 2 ^ E.BITS_PER_LONG) / 16)
    ∧ 16 ∣ config_cadr E dev
    ∧ (∃ (s1 : State σ) (rest : List Event),
        config_i810 E dev ⟨m, hw, tr⟩ = .ok s1
        ∧ s1.mem = E.ioremap_nocache (config_cadr E dev) 0x1000
        ∧ s1.trace = tr ++ Event.ioremap_nocache (config_cadr E dev) 0x1000 :: rest)
    ∧ (((dev.resource_start 1 + 0x5000) % 2 ^ E.BITS_PER_LONG) % 0x1000 < 16 →
        config_cadr E dev
            = ((dev.resource_start 1 + 0x5000) % 2 ^ E.BITS_PER_LONG) &&& PAGE_MASK E.BITS_PER_LONG
        ∧ 0x1000 ∣ config_cadr E dev)
    ∧ (dev.resource_start 1 = 0x80000000 → 32 ≤ E.BITS_PER_LONG →
        config_cadr E dev = 0x80005000) := by
  have hx : (dev.resource_start 1 + 0x5000) % 2 ^ E.BITS_PER_LONG < 2 ^ E.BITS_PER_LONG :=
    Nat.mod_lt _ (Nat.two_pow_pos _)
  have h16 : config_cadr E dev
      = 16 * (((dev.resource_start 1 + 0x5000) % 2 ^ E.BITS_PER_LONG) / 16) := by
    rw [config_cadr_eq, and_mem_mask _ _ hx]
  refine ⟨config_cadr_eq E dev, h16, ⟨_, h16⟩, config_maps_cadr E dev m hw tr, ?_, ?_⟩
  · intro hlow
    have hpage := and_page_mask _ _ hx
    have heq : config_cadr E dev
        = 0x1000 * (((dev.resource_start 1 + 0x5000) % 2 ^ E.BITS_PER_LONG) / 0x1000) := by
      rw [h16]
      omega
    exact ⟨by rw [hpage, heq], ⟨_, heq⟩⟩
  · intro hs hbits
    have hlt : (0x80000000 + 0x5000 : Nat) < 2 ^ E.BITS_PER_LONG :=
      lt_of_lt_of_le (by decide : (0x80000000 + 0x5000 : Nat) < 2 ^ 32)
        (Nat.pow_le_pow_right (by decide) hbits)
    rw [h16, hs, Nat.mod_eq_of_lt hlt]

/-- Witness for `cadr_mem_masked`: the start address `0x80000000` with a
32-bit `unsigned long`. -/
theorem cadr_mem_masked_witness :
    ((0x80000000 + 0x5000) % 2 ^ 32) % 0x1000 < 16
    ∧ (32 : Nat) ≤ (unitEnv (fun a _ => some a) 32 100).BITS_PER_LONG
    ∧ config_cadr (unitEnv (fun a _ => some a) 32 100) ⟨fun _ => 0x80000000⟩
        = ((0x80000000 + 0x5000) % 2 ^ 32) &&& PAGE_MASK 32
    ∧ 0x1000 ∣ config_cadr (unitEnv (fun a _ => some a) 32 100) ⟨fun _ => 0x80000000⟩
    ∧ config_cadr (unitEnv (fun a _ => some a) 32 100) ⟨fun _ => 0x80000000⟩ = 0x80005000 :=
  have h := cadr_mem_masked (unitEnv (fun a _ => some a) 32 100) ⟨fun _ => 0x80000000⟩
    none () []
  ⟨by decide, by decide, (h.2.2.2.2.1 (by decide)).1, (h.2.2.2.2.1 (by decide)).2,
    h.2.2.2.2.2 rfl (by decide)⟩

end I810
